import Mathlib

/-!
# go-zig: the `zig` launcher (`cmd/zig/main.go`)

A shallow embedding of the launcher: the cache resolver `myUserCacheDir`, and
`main`, which installs the bundled archives into the cache directory when it is
absent and then runs the cached executable with the caller's arguments.

The operating system is an explicit `World`: a file tree, a script of
externally caused failures consumed by the successive system calls, and the
trace of the calls made so far.  The standard-library calls that `main.go`
makes (`os.Stat`, `os.MkdirAll`, `os.CopyFS`, `os.RemoveAll`, `exec.Cmd.Run`,
`log.Fatalf`, `os.Exit`) are functions on that world, written after the
documented behaviour of the Go standard library.

Conventions of the model:
* a path is its list of components, and `filepath.Join` appends components;
* a system call that fails leaves the file tree as it was;
* any fallible system call may fail for a reason outside the file tree
  (permissions, a busy file, a full disk): the `faults` script of the world;
* the embedded archives and the zip decoder are inputs (`Env`), and so is what
  an executable does when it is run; a child always terminates, and what it
  does to the file tree is not followed;
* `log.Fatal` and `log.Fatalf` end the process with status 1.
-/

namespace GoZig

/-! ## Paths, bytes, files -/

/-- A path is its sequence of components. -/
abbrev Path := List String

/-- The Go call `filepath.Join(base, elems...)`: the elements are appended to the base path. -/
def Join (base : Path) (elems : List String) : Path :=
  base ++ elems

/-- The `%v` rendering of a path. -/
def Path.render (p : Path) : String :=
  String.intercalate "/" p

/-- A byte slice, `[]byte`. -/
abbrev Bytes := List Nat

/-- A node of the file tree. -/
inductive Node where
  | dir
  | file (content : Bytes) (mode : Nat)
deriving DecidableEq, Repr

/-- The file tree: what is at each path, if anything. -/
abbrev FS := Path → Option Node

/-! ## Errors -/

/-- The `syscall.Errno` values that occur. -/
inductive Errno where
  | ENOENT
  | EEXIST
  | ENOTDIR
  | EACCES
  | EINVAL
  | EPERM
  | ENOSPC
  | EBUSY
deriving DecidableEq, Repr

/-- The message of an errno, `Errno.Error()`. -/
def Errno.Error : Errno → String
  | .ENOENT => "no such file or directory"
  | .EEXIST => "file exists"
  | .ENOTDIR => "not a directory"
  | .EACCES => "permission denied"
  | .EINVAL => "invalid argument"
  | .EPERM => "operation not permitted"
  | .ENOSPC => "no space left on device"
  | .EBUSY => "device or resource busy"

/-- How a child process ended, `os.ProcessState`. -/
inductive ProcessState where
  | exited (code : Nat)
  | signaled (sig : Nat)
deriving DecidableEq, Repr

/-- The method `ProcessState.ExitCode()`: the exit code of an exited process, -1 for one
ended by a signal. -/
def ProcessState.ExitCode : ProcessState → Int
  | .exited code => (code : Int)
  | .signaled _ => -1

/-- The method `ProcessState.Success()`: exited with status 0. -/
def ProcessState.Success : ProcessState → Bool
  | .exited 0 => true
  | _ => false

/-- The method `ProcessState.String()`. -/
def ProcessState.render : ProcessState → String
  | .exited code => "exit status " ++ toString code
  | .signaled sig => "signal: " ++ toString sig

/-- Go error values, as far as the launcher meets them. -/
inductive Error where
  /-- A `*fs.PathError`: operation, path, underlying errno. -/
  | pathError (op : String) (path : Path) (err : Errno)
  /-- An `*exec.ExitError`: the child ran and did not exit with status 0. -/
  | exitError (state : ProcessState)
  /-- The result of `fmt.Errorf(msg ++ "%w", err)`. -/
  | errorf (msg : String) (wrapped : Error)
  /-- Any other error, by its message (`errors.New`). -/
  | errorString (msg : String)
deriving DecidableEq, Repr

/-- The method `err.Error()`, the message of an error. -/
def Error.Message : Error → String
  | .pathError op path err => op ++ " " ++ path.render ++ ": " ++ err.Error
  | .exitError state => state.render
  | .errorf msg wrapped => msg ++ wrapped.Message
  | .errorString msg => msg

/-- The test `errors.Is(err, fs.ErrNotExist)`, which looks through wrappers. -/
def Error.IsNotExist : Error → Bool
  | .pathError _ _ err => decide (err = .ENOENT)
  | .exitError _ => false
  | .errorf _ wrapped => wrapped.IsNotExist
  | .errorString _ => false

/-- The test `errors.Is(err, fs.ErrExist)`, which looks through wrappers. -/
def Error.IsExist : Error → Bool
  | .pathError _ _ err => decide (err = .EEXIST)
  | .exitError _ => false
  | .errorf _ wrapped => wrapped.IsExist
  | .errorString _ => false

/-- The call `errors.As(err, &exitErr)` for `exitErr *exec.ExitError`. -/
def Error.AsExitError : Error → Option ProcessState
  | .pathError _ _ _ => none
  | .exitError state => some state
  | .errorf _ wrapped => wrapped.AsExitError
  | .errorString _ => none

/-! ## The world -/

/-- One call made to the operating system. -/
inductive Effect where
  /-- The call `os.Stat(path)`. -/
  | stat (path : Path)
  /-- The call `os.MkdirAll(path, perm)`. -/
  | mkdirAll (path : Path)
  /-- The call `zip.NewReader` on an embedded archive. -/
  | openZip (blob : Bytes)
  /-- The exclusive creation and writing of a file by `os.CopyFS`. -/
  | createFile (path : Path)
  /-- The call `os.RemoveAll(path)`. -/
  | removeAll (path : Path)
  /-- A child process that was started with this executable and argument vector, and how
  it ended. -/
  | child (exe : Path) (argv : List String) (state : ProcessState)
deriving DecidableEq, Repr

/-- The effects that write to the file system or open an archive: the installation steps. -/
def Effect.isInstallStep : Effect → Bool
  | .stat _ => false
  | .mkdirAll _ => true
  | .openZip _ => true
  | .createFile _ => true
  | .removeAll _ => true
  | .child _ _ _ => false

/-- The effects that record a started child process. -/
def Effect.isChild : Effect → Bool
  | .child _ _ _ => true
  | _ => false

/-- The state of the operating system around the launcher. -/
structure World where
  /-- The file tree. -/
  fs : FS
  /-- The failures the environment causes: the n-th fallible system call consumes the n-th
  entry; `some errno` makes that call fail with `errno` whatever the file tree, `none`
  (or an exhausted script) lets the call behave as the file tree dictates. -/
  faults : List (Option Errno)
  /-- The calls made so far, oldest first. -/
  trace : List Effect

/-- The world at process start: nothing traced yet. -/
def World.boot (fs : FS) (faults : List (Option Errno)) : World :=
  { fs := fs, faults := faults, trace := [] }

/-- The failure, if any, the environment causes in the next system call. -/
def World.fault (w : World) : Option Errno :=
  w.faults.head?.join

/-- The world after a system call: its fault entry consumed, the call traced, the file
tree as given. -/
def World.after (w : World) (e : Effect) (fs : FS) : World :=
  { fs := fs, faults := w.faults.tail, trace := w.trace ++ [e] }

/-! ## The system calls -/

/-- Whether a file (not a directory) is at the path or at one of its ancestors. -/
def blockedByFile (fs : FS) (path : Path) : Bool :=
  path.inits.any fun q =>
    match fs q with
    | some (.file _ _) => true
    | _ => false

/-- The call `os.Stat(name)`, reduced to its error: nil when something is at `name`; when
nothing is, a does-not-exist error, or `ENOTDIR` when a file is in the way; any other
errno when the environment fails the call. -/
def Stat (w : World) (name : Path) : Option Error × World :=
  match w.fault with
  | some errno => (some (.pathError "stat" name errno), w.after (.stat name) w.fs)
  | none =>
    match w.fs name with
    | some _ => (none, w.after (.stat name) w.fs)
    | none =>
      if blockedByFile w.fs name then
        (some (.pathError "stat" name .ENOTDIR), w.after (.stat name) w.fs)
      else
        (some (.pathError "stat" name .ENOENT), w.after (.stat name) w.fs)

/-- The call `os.MkdirAll(path, perm)`: creates the directory and every missing parent;
nil when the directory is already there; an error when a file is in the way. -/
def MkdirAll (w : World) (path : Path) : Option Error × World :=
  match w.fault with
  | some errno => (some (.pathError "mkdir" path errno), w.after (.mkdirAll path) w.fs)
  | none =>
    if blockedByFile w.fs path then
      (some (.pathError "mkdir" path .ENOTDIR), w.after (.mkdirAll path) w.fs)
    else
      (none, w.after (.mkdirAll path) fun q =>
        if q.isPrefixOf path && (w.fs q).isNone then some .dir else w.fs q)

/-- The call `os.OpenFile(path, O_CREATE|O_EXCL|O_WRONLY, 0666|mode&0777)` of `os.CopyFS`,
followed by the copy of the content and the close: fails when something is already at
`path` (`O_EXCL`), or when the parent is not a directory.  The package documentation of
`os.CopyFS` reads: "CopyFS will not overwrite existing files. If a file name in fsys
already exists in the destination, CopyFS will return an error such that
errors.Is(err, fs.ErrExist) will be true." -/
def createFile (w : World) (path : Path) (content : Bytes) (mode : Nat) : Option Error × World :=
  match w.fault with
  | some errno => (some (.pathError "open" path errno), w.after (.createFile path) w.fs)
  | none =>
    match w.fs path with
    | some _ => (some (.pathError "open" path .EEXIST), w.after (.createFile path) w.fs)
    | none =>
      match w.fs path.dropLast with
      | some .dir =>
        (none, w.after (.createFile path) fun q =>
          if q = path then some (.file content (0o666 ||| (mode &&& 0o777))) else w.fs q)
      | some (.file _ _) =>
        (some (.pathError "open" path .ENOTDIR), w.after (.createFile path) w.fs)
      | none => (some (.pathError "open" path .ENOENT), w.after (.createFile path) w.fs)

/-- The call `os.RemoveAll(path)`: removes the path and everything below it; nil also when
nothing was there; when the environment fails the call the tree is left as it was. -/
def RemoveAll (w : World) (path : Path) : Option Error × World :=
  match w.fault with
  | some errno => (some (.pathError "unlinkat" path errno), w.after (.removeAll path) w.fs)
  | none =>
    (none, w.after (.removeAll path) fun q => if path.isPrefixOf q then none else w.fs q)

/-! ## Archives -/

/-- What an archive entry is. -/
inductive EntryKind where
  | dir
  | file (content : Bytes) (mode : Nat)
  /-- Anything that is neither a directory nor a regular file, a symbolic link for one. -/
  | irregular
deriving DecidableEq, Repr

/-- One entry of an archive, at a path relative to the archive root. -/
structure Entry where
  path : Path
  kind : EntryKind
deriving DecidableEq, Repr

/-- An opened archive: its entries below the root in the order `fs.WalkDir` visits them. -/
abbrev Archive := List Entry

/-- The callback of `os.CopyFS` on one entry: a directory is made with `MkdirAll`, a
regular file is created exclusively and written, anything else is refused. -/
def copyEntry (w : World) (dir : Path) (e : Entry) : Option Error × World :=
  match e.kind with
  | .dir => MkdirAll w (dir ++ e.path)
  | .file content mode => createFile w (dir ++ e.path) content mode
  | .irregular => (some (.pathError "CopyFS" e.path .EINVAL), w)

/-- The walk of `os.CopyFS` over the entries: copying stops at the first error. -/
def copyEntries (w : World) (dir : Path) : List Entry → Option Error × World
  | [] => (none, w)
  | e :: es =>
    match copyEntry w dir e with
    | (some err, w1) => (some err, w1)
    | (none, w1) => copyEntries w1 dir es

/-- The call `os.CopyFS(dir, fsys)`: the walk starts at the root of the archive, for which
`dir` itself is made, and goes on through the entries. -/
def CopyFS (w : World) (dir : Path) (fsys : Archive) : Option Error × World :=
  match MkdirAll w dir with
  | (some err, w1) => (some err, w1)
  | (none, w1) => copyEntries w1 dir fsys

/-! ## The process environment -/

/-- What the process is given from outside. -/
structure Env where
  /-- The constant `runtime.GOOS`. -/
  GOOS : String
  /-- The result of `os.UserCacheDir()`. -/
  UserCacheDir : Except Error Path
  /-- The variable `os.Args`. -/
  Args : List String
  /-- The embedded file `zig-common.zip`. -/
  zigCommonZip : Bytes
  /-- The embedded file `zig-linux-amd64.zip`. -/
  zigLinuxAmd64Zip : Bytes
  /-- The pure part of `zip.NewReader`: the archive that the bytes hold, or the error. -/
  zipDecode : Bytes → Except Error Archive
  /-- What an executable file with the given content does when run with the given argument
  vector: how the process ends. -/
  behaviour : Bytes → List String → ProcessState

/-- The call `zip.NewReader(bytes.NewReader(blob), len)`. -/
def zipNewReader (env : Env) (w : World) (blob : Bytes) : Except Error Archive × World :=
  (env.zipDecode blob, { w with trace := w.trace ++ [.openZip blob] })

/-- The struct `exec.Cmd`, the fields the launcher uses. -/
structure Cmd where
  Path : List String
  Args : List String
deriving DecidableEq, Repr

/-- The call `exec.Command(name)` without further arguments, for a name with a directory
part (no lookup in `PATH`). -/
def Command (name : Path) : Cmd :=
  { Path := name, Args := [name.render] }

/-- The method `Cmd.argv()`: the argument vector the child gets. -/
def Cmd.argv (c : Cmd) : List String :=
  if c.Args.length > 0 then c.Args else [Path.render c.Path]

/-- The `%v` rendering of a command, `Cmd.String()` under `fmt`. -/
def Cmd.render (c : Cmd) : String :=
  match c.Args with
  | [] => "%!v(PANIC=String method: runtime error: slice bounds out of range [1:0])"
  | _ :: rest => String.intercalate " " (Path.render c.Path :: rest)

/-- The method `Cmd.Run()`: starts the executable at `c.Path` with `c.argv()` and waits for
it.  Nil when the child exits with status 0, an `*exec.ExitError` when it ends otherwise,
another error when it cannot be started.  What the child does to the file tree is not
modelled. -/
def Run (env : Env) (w : World) (c : Cmd) : Option Error × World :=
  match w.fault with
  | some errno => (some (.pathError "fork/exec" c.Path errno), { w with faults := w.faults.tail })
  | none =>
    match w.fs c.Path with
    | none =>
      if blockedByFile w.fs c.Path then
        (some (.pathError "fork/exec" c.Path .ENOTDIR), { w with faults := w.faults.tail })
      else
        (some (.pathError "fork/exec" c.Path .ENOENT), { w with faults := w.faults.tail })
    | some .dir =>
      (some (.pathError "fork/exec" c.Path .EACCES), { w with faults := w.faults.tail })
    | some (.file content _) =>
      if (env.behaviour content c.argv).Success then
        (none, w.after (.child c.Path c.argv (env.behaviour content c.argv)) w.fs)
      else
        (some (.exitError (env.behaviour content c.argv)),
          w.after (.child c.Path c.argv (env.behaviour content c.argv)) w.fs)

/-! ## The program -/

/-- How the process ended. -/
structure Result where
  /-- The exit status of the launcher. -/
  exitCode : Int
  /-- The diagnostics the launcher wrote through the `log` package. -/
  diagnostics : List String
  /-- The world it left. -/
  world : World

/-- The call `log.Fatal(msg)` and `log.Fatalf`: writes the message, then `os.Exit(1)`. -/
def Fatal (w : World) (msg : String) : Result :=
  { exitCode := 1, diagnostics := [msg], world := w }

/-- The call `os.Exit(code)`. -/
def Exit (w : World) (code : Int) : Result :=
  { exitCode := code, diagnostics := [], world := w }

def appname : String := "go-zig"

def appauthor : String := "jcbhmr"

def version : String := "0.13.0"

/-- The function `myUserCacheDir` (main.go, lines 23 to 40), as a function of `runtime.GOOS`
and of the result of `os.UserCacheDir()`. -/
def myUserCacheDir (GOOS : String) (UserCacheDir : Except Error Path) : Except Error Path :=
  match UserCacheDir with
  | .error err => .error err
  | .ok userCacheDir =>
    if GOOS = "windows" then
      .ok (Join userCacheDir [appauthor, appname, "Cache", version])
    else if GOOS = "darwin" then
      .ok (Join userCacheDir [appname, version])
    else
      .ok (Join userCacheDir [appname, version])

/-- The function literal of `main` (lines 66 to 88): opens and extracts `zig-common.zip`,
then `zig-linux-amd64.zip`, wrapping the first error. -/
def extractArchives (env : Env) (w : World) (cacheDir : Path) : Option Error × World :=
  match zipNewReader env w env.zigCommonZip with
  | (.error err, w1) =>
    (some (.errorf "failed to create zip reader for zig-common.zip: " err), w1)
  | (.ok zipReader, w1) =>
    match CopyFS w1 cacheDir zipReader with
    | (some err, w2) =>
      (some (.errorf ("failed to copy zig-common.zip to cache directory "
        ++ cacheDir.render ++ ": ") err), w2)
    | (none, w2) =>
      match zipNewReader env w2 env.zigLinuxAmd64Zip with
      | (.error err, w3) =>
        (some (.errorf "failed to create zip reader for zig-linux-amd64.zip: " err), w3)
      | (.ok zipReader, w3) =>
        match CopyFS w3 cacheDir zipReader with
        | (some err, w4) =>
          (some (.errorf ("failed to copy zig-linux-amd64.zip to cache directory "
            ++ cacheDir.render ++ ": ") err), w4)
        | (none, w4) => (none, w4)

/-- The name of the executable (lines 98 to 103). -/
def zigExe (GOOS : String) : String :=
  if GOOS = "windows" then "zig.exe" else "zig"

/-- The command that `main` builds (lines 104 and 105): `exec.Command` on the executable
in the cache directory, its `Args` then replaced by `os.Args`. -/
def zigCmd (env : Env) (cacheDir : Path) : Cmd :=
  { Command (Join cacheDir [zigExe env.GOOS]) with Args := env.Args }

/-- The end of `main` (lines 98 to 119): runs the cached executable and exits with its
exit code, or fatally when it could not be run. -/
def delegate (env : Env) (w : World) (cacheDir : Path) : Result :=
  match Run env w (zigCmd env cacheDir) with
  | (none, w1) => Exit w1 0
  | (some err, w1) =>
    match err.AsExitError with
    | some exitErr => Exit w1 exitErr.ExitCode
    | none =>
      Fatal w1 ("failed to run " ++ (zigCmd env cacheDir).render ++ ": " ++ err.Message)

/-- The function `main` (lines 42 to 120). -/
def main (env : Env) (w : World) : Result :=
  match myUserCacheDir env.GOOS env.UserCacheDir with
  | .error err => Fatal w ("failed to get cache directory: " ++ err.Message)
  | .ok cacheDir =>
    match Stat w cacheDir with
    | (none, w1) => delegate env w1 cacheDir
    | (some err, w1) =>
      if err.IsNotExist then
        match MkdirAll w1 cacheDir with
        | (some err, w2) =>
          Fatal w2 ("failed to create cache directory " ++ cacheDir.render ++ ": "
            ++ err.Message)
        | (none, w2) =>
          match extractArchives env w2 cacheDir with
          | (none, w3) => delegate env w3 cacheDir
          | (some err, w3) =>
            match RemoveAll w3 cacheDir with
            | (some err2, w4) =>
              Fatal w4 ("failed to remove cache directory " ++ cacheDir.render
                ++ " after fatal error " ++ err.Message ++ ": " ++ err2.Message)
            | (none, w4) => Fatal w4 err.Message
      else
        Fatal w1 ("failed to stat cache directory " ++ cacheDir.render ++ ": " ++ err.Message)

/-! ## Concrete inputs -/

/-- A file tree with a home directory and no cache directory yet. -/
def homeFS : FS := fun p =>
  if p = [] ∨ p = ["home"] ∨ p = ["home", "u"] ∨ p = ["home", "u", ".cache"] then some .dir
  else none

/-- The cache directory of the sample environments. -/
def sampleCacheDir : Path := ["home", "u", ".cache", "go-zig", "0.13.0"]

/-- A file tree in which the cache directory is fully installed. -/
def installedFS : FS := fun p =>
  if p = sampleCacheDir ++ ["zig"] then some (.file [7] 0o777)
  else if p = sampleCacheDir ++ ["lib", "std.zig"] then some (.file [10] 0o666)
  else if p.isPrefixOf (sampleCacheDir ++ ["lib"]) then some .dir
  else none

/-- A file tree that holds the directory `d`, its ancestors, and nothing else. -/
def dirFS (d : Path) : FS := fun p =>
  if p.isPrefixOf d then some .dir else none

/-- A file tree in which the cache directory exists and is empty. -/
def emptyCacheFS : FS := dirFS sampleCacheDir

/-- The cache directory of the sample environment on windows. -/
def windowsCacheDir : Path := ["home", "u", ".cache", "jcbhmr", "go-zig", "Cache", "0.13.0"]

/-- A decoder for three blobs: `[1]` holds a library directory with one file, `[2]` holds
the executable, `[3]` holds another executable at the same path; nothing else is a zip. -/
def sampleDecode (b : Bytes) : Except Error Archive :=
  if b = [1] then .ok [⟨["lib"], .dir⟩, ⟨["lib", "std.zig"], .file [10] 0o644⟩]
  else if b = [2] then .ok [⟨["zig"], .file [7] 0o755⟩]
  else if b = [3] then .ok [⟨["zig"], .file [9] 0o755⟩]
  else .error (.errorString "zip: not a valid zip file")

/-- A linux environment invoked as `zig foo bar`; an executable exits with the first byte
of its content as status. -/
def sampleEnv : Env :=
  { GOOS := "linux"
    UserCacheDir := .ok ["home", "u", ".cache"]
    Args := ["zig", "foo", "bar"]
    zigCommonZip := [1]
    zigLinuxAmd64Zip := [2]
    zipDecode := sampleDecode
    behaviour := fun content _ => .exited (content.headD 0) }

/-- The sample environment on windows. -/
def windowsEnv : Env :=
  { sampleEnv with GOOS := "windows" }

/-- The sample environment with a second archive that is not a zip file. -/
def brokenEnv : Env :=
  { sampleEnv with zigLinuxAmd64Zip := [0] }

/-- The sample environment with two archives that both hold a file `zig`. -/
def overlapEnv : Env :=
  { sampleEnv with zigCommonZip := [3] }

/-! ## Observations on traces -/

/-- The started child processes recorded in a trace. -/
def children (t : List Effect) : List Effect :=
  t.filter Effect.isChild

/-- Whether a string occurs inside another. -/
def Occurs (part whole : String) : Prop :=
  ∃ before after : String, whole = before ++ part ++ after

/-- The trace of the later world continues the trace of the earlier one. -/
def World.Extends (w w1 : World) : Prop :=
  ∃ t, w1.trace = w.trace ++ t

/-- Failures for a cold-cache run of `brokenEnv`: the stat, the three `MkdirAll` and the
file creation go through, the `RemoveAll` of the rollback fails with `EBUSY`. -/
def busyRollback : List (Option Errno) :=
  [none, none, none, none, none, some .EBUSY]

/-! ## The cache resolver -/

/-- C1: for every cache root `r` that `os.UserCacheDir` returns without error and every
platform identifier `g`, `myUserCacheDir` returns `Join(r, "jcbhmr", "go-zig", "Cache",
"0.13.0")` when `g` is `"windows"` and `Join(r, "go-zig", "0.13.0")` for every other `g`,
`"darwin"` included; the function has no argument besides `g` and the result of
`os.UserCacheDir`, so the result depends on nothing else. -/
theorem myUserCacheDir_layout (g : String) (r : Path) :
    myUserCacheDir g (.ok r) =
        .ok (if g = "windows" then Join r ["jcbhmr", "go-zig", "Cache", "0.13.0"]
          else Join r ["go-zig", "0.13.0"])
      ∧ myUserCacheDir "windows" (.ok r) = .ok (Join r ["jcbhmr", "go-zig", "Cache", "0.13.0"])
      ∧ myUserCacheDir "darwin" (.ok r) = .ok (Join r ["go-zig", "0.13.0"]) := by
  refine ⟨?_, ?_, ?_⟩
  · unfold myUserCacheDir appauthor appname version
    by_cases hw : g = "windows"
    · simp [hw]
    · by_cases hd : g = "darwin" <;> simp [hw, hd]
  · simp [myUserCacheDir, appauthor, appname, version]
  · simp [myUserCacheDir, appauthor, appname, version]

/-! ## What each system call does to the trace and to the file tree -/

theorem Stat_trace (w : World) (p : Path) : (Stat w p).2.trace = w.trace ++ [.stat p] := by
  unfold Stat
  split
  · rfl
  · split
    · rfl
    · split <;> rfl

theorem Stat_fs (w : World) (p : Path) : (Stat w p).2.fs = w.fs := by
  unfold Stat
  split
  · rfl
  · split
    · rfl
    · split <;> rfl

theorem MkdirAll_trace (w : World) (p : Path) :
    (MkdirAll w p).2.trace = w.trace ++ [.mkdirAll p] := by
  unfold MkdirAll
  split
  · rfl
  · split <;> rfl

theorem createFile_trace (w : World) (p : Path) (c : Bytes) (m : Nat) :
    (createFile w p c m).2.trace = w.trace ++ [.createFile p] := by
  unfold createFile
  split
  · rfl
  · split
    · rfl
    · split <;> rfl

theorem RemoveAll_trace (w : World) (p : Path) :
    (RemoveAll w p).2.trace = w.trace ++ [.removeAll p] := by
  unfold RemoveAll
  split <;> rfl

theorem children_append (s t : List Effect) : children (s ++ t) = children s ++ children t := by
  simp [children]

theorem Stat_children (w : World) (p : Path) :
    children (Stat w p).2.trace = children w.trace := by
  rw [Stat_trace]; simp [children, Effect.isChild]

theorem MkdirAll_children (w : World) (p : Path) :
    children (MkdirAll w p).2.trace = children w.trace := by
  rw [MkdirAll_trace]; simp [children, Effect.isChild]

theorem createFile_children (w : World) (p : Path) (c : Bytes) (m : Nat) :
    children (createFile w p c m).2.trace = children w.trace := by
  rw [createFile_trace]; simp [children, Effect.isChild]

theorem RemoveAll_children (w : World) (p : Path) :
    children (RemoveAll w p).2.trace = children w.trace := by
  rw [RemoveAll_trace]; simp [children, Effect.isChild]

theorem copyEntry_children (w : World) (dir : Path) (e : Entry) :
    children (copyEntry w dir e).2.trace = children w.trace := by
  unfold copyEntry
  split
  · exact MkdirAll_children _ _
  · exact createFile_children _ _ _ _
  · rfl

theorem copyEntries_children (dir : Path) (es : List Entry) :
    ∀ w : World, children (copyEntries w dir es).2.trace = children w.trace := by
  induction es with
  | nil => intro w; rfl
  | cons e es ih =>
    intro w
    unfold copyEntries
    rcases h : copyEntry w dir e with ⟨_ | err, w1⟩
    · have h1 := copyEntry_children w dir e
      rw [h] at h1
      simp only
      rw [ih w1]
      exact h1
    · have h1 := copyEntry_children w dir e
      rw [h] at h1
      exact h1

theorem CopyFS_children (w : World) (dir : Path) (a : Archive) :
    children (CopyFS w dir a).2.trace = children w.trace := by
  unfold CopyFS
  rcases h : MkdirAll w dir with ⟨_ | err, w1⟩
  · have h1 := MkdirAll_children w dir
    rw [h] at h1
    simp only
    rw [copyEntries_children]
    exact h1
  · have h1 := MkdirAll_children w dir
    rw [h] at h1
    exact h1

theorem zipNewReader_children (env : Env) (w : World) (blob : Bytes) :
    children (zipNewReader env w blob).2.trace = children w.trace := by
  simp [zipNewReader, children, Effect.isChild]

theorem extractArchives_children (env : Env) (w : World) (cd : Path) :
    children (extractArchives env w cd).2.trace = children w.trace := by
  have z1 := zipNewReader_children env w env.zigCommonZip
  unfold extractArchives
  rcases h1 : zipNewReader env w env.zigCommonZip with ⟨err | a1, w1⟩
  · rw [h1] at z1; exact z1
  · rw [h1] at z1
    have c1 := CopyFS_children w1 cd a1
    simp only
    rcases h2 : CopyFS w1 cd a1 with ⟨_ | err, w2⟩
    · rw [h2] at c1
      have z2 := zipNewReader_children env w2 env.zigLinuxAmd64Zip
      simp only
      rcases h3 : zipNewReader env w2 env.zigLinuxAmd64Zip with ⟨err | a2, w3⟩
      · rw [h3] at z2; simp only; rw [z2, c1, z1]
      · rw [h3] at z2
        have c2 := CopyFS_children w3 cd a2
        simp only
        rcases h4 : CopyFS w3 cd a2 with ⟨_ | err, w4⟩
        · rw [h4] at c2; simp only; rw [c2, z2, c1, z1]
        · rw [h4] at c2; simp only; rw [c2, z2, c1, z1]
    · rw [h2] at c1; simp only; rw [c1, z1]

/-! ## The delegator -/

theorem zigCmd_argv (env : Env) (cd : Path) :
    (zigCmd env cd).argv = if env.Args.length > 0 then env.Args
      else [Path.render (Join cd [zigExe env.GOOS])] := by
  simp [zigCmd, Cmd.argv, Command]

/-- The delegator ends in one of two ways: the child could not be started, nothing is
added to the trace and the launcher dies with status 1 and the start-failure diagnostic;
or the executable is there, the child ran and ended in some state, which is traced, and
the launcher exits with the exit code of that state. -/
theorem delegate_cases (env : Env) (w : World) (cd : Path) :
    (∃ errno, delegate env w cd =
        Fatal { w with faults := w.faults.tail }
          ("failed to run " ++ (zigCmd env cd).render ++ ": "
            ++ (Error.pathError "fork/exec" (Join cd [zigExe env.GOOS]) errno).Message))
      ∨ (∃ content mode, w.fault = none
          ∧ w.fs (Join cd [zigExe env.GOOS]) = some (.file content mode)
          ∧ delegate env w cd =
            Exit (w.after (.child (Join cd [zigExe env.GOOS]) (zigCmd env cd).argv
                (env.behaviour content (zigCmd env cd).argv)) w.fs)
              (env.behaviour content (zigCmd env cd).argv).ExitCode) := by
  have hp : (zigCmd env cd).Path = Join cd [zigExe env.GOOS] := rfl
  unfold delegate Run
  rw [hp]
  cases hf : w.fault with
  | some errno =>
    left
    exact ⟨errno, by simp [Error.AsExitError]⟩
  | none =>
    cases hx : w.fs (Join cd [zigExe env.GOOS]) with
    | none =>
      left
      by_cases hb : blockedByFile w.fs (Join cd [zigExe env.GOOS]) = true
      · exact ⟨.ENOTDIR, by simp [Error.AsExitError, hb]⟩
      · exact ⟨.ENOENT, by simp [Error.AsExitError, hb]⟩
    | some node =>
      cases node with
      | dir =>
        left
        exact ⟨.EACCES, by simp [Error.AsExitError]⟩
      | file content mode =>
        right
        refine ⟨content, mode, rfl, rfl, ?_⟩
        simp only
        cases hb : env.behaviour content (zigCmd env cd).argv with
        | exited code =>
          cases code with
          | zero => simp [ProcessState.Success, ProcessState.ExitCode]
          | succ n => simp [ProcessState.Success, ProcessState.ExitCode, Error.AsExitError]
        | signaled sig =>
          simp [ProcessState.Success, ProcessState.ExitCode, Error.AsExitError]

/-! ## The shape of a run -/

/-- Every run of `main` either dies in the resolver or the installer, or hands over to the
delegator; up to there no child is started. -/
theorem main_cases (env : Env) (w : World) :
    (∃ w1 msg, main env w = Fatal w1 msg ∧ children w1.trace = children w.trace)
      ∨ (∃ w1 cd, myUserCacheDir env.GOOS env.UserCacheDir = .ok cd
          ∧ main env w = delegate env w1 cd ∧ children w1.trace = children w.trace) := by
  unfold main
  cases hcd : myUserCacheDir env.GOOS env.UserCacheDir with
  | error err => exact Or.inl ⟨w, _, rfl, rfl⟩
  | ok cd =>
    simp only
    have s1 := Stat_children w cd
    rcases hs : Stat w cd with ⟨_ | err, w1⟩
    · rw [hs] at s1
      exact Or.inr ⟨w1, cd, rfl, rfl, s1⟩
    · rw [hs] at s1
      simp only
      by_cases hne : err.IsNotExist = true
      · rw [if_pos hne]
        have m1 := MkdirAll_children w1 cd
        rcases hm : MkdirAll w1 cd with ⟨_ | err1, w2⟩
        · rw [hm] at m1
          simp only
          have x1 := extractArchives_children env w2 cd
          rcases hx : extractArchives env w2 cd with ⟨_ | err2, w3⟩
          · rw [hx] at x1
            exact Or.inr ⟨w3, cd, rfl, rfl, by rw [x1, m1, s1]⟩
          · rw [hx] at x1
            simp only
            have r1 := RemoveAll_children w3 cd
            rcases hr : RemoveAll w3 cd with ⟨_ | err3, w4⟩
            · rw [hr] at r1
              exact Or.inl ⟨w4, _, rfl, by rw [r1, x1, m1, s1]⟩
            · rw [hr] at r1
              exact Or.inl ⟨w4, _, rfl, by rw [r1, x1, m1, s1]⟩
        · rw [hm] at m1
          exact Or.inl ⟨w2, _, rfl, by rw [m1, s1]⟩
      · rw [if_neg hne]
        exact Or.inl ⟨w1, _, rfl, s1⟩

theorem not_mem_of_children_nil {t : List Effect} (h : children t = [])
    (exe : Path) (argv : List String) (st : ProcessState) : Effect.child exe argv st ∉ t := by
  intro hmem
  have : Effect.child exe argv st ∈ children t := by
    simp [children, hmem, Effect.isChild]
  rw [h] at this
  exact absurd this (List.not_mem_nil _)

/-- A child recorded in the trace of a run from process start is the one the delegator
started: it ran the executable in the cache directory with the argument vector of the
command, and the launcher exited with its exit code. -/
theorem main_child (env : Env) (fs : FS) (faults : List (Option Errno))
    (exe : Path) (argv : List String) (st : ProcessState)
    (h : Effect.child exe argv st ∈ (main env (World.boot fs faults)).world.trace) :
    argv = (if env.Args.length > 0 then env.Args else [Path.render exe])
      ∧ (main env (World.boot fs faults)).exitCode = st.ExitCode
      ∧ ∃ cd, myUserCacheDir env.GOOS env.UserCacheDir = .ok cd
          ∧ exe = Join cd [zigExe env.GOOS] := by
  rcases main_cases env (World.boot fs faults) with ⟨w1, msg, hm, hc⟩ | ⟨w1, cd, hcd, hm, hc⟩
  · rw [hm] at h
    have hnil : children w1.trace = [] := by rw [hc]; rfl
    exact absurd h (not_mem_of_children_nil hnil exe argv st)
  · have hnil : children w1.trace = [] := by rw [hc]; rfl
    rw [hm] at h ⊢
    rcases delegate_cases env w1 cd with ⟨errno, hd⟩ | ⟨content, mode, _, _, hd⟩
    · rw [hd] at h
      exact absurd h (not_mem_of_children_nil hnil exe argv st)
    · rw [hd] at h ⊢
      simp only [Exit, World.after, List.mem_append, List.mem_singleton] at h
      rcases h with h | h
      · exact absurd h (not_mem_of_children_nil hnil exe argv st)
      · injection h with h1 h2 h3
        subst h1 h2 h3
        refine ⟨?_, rfl, cd, hcd, rfl⟩
        exact zigCmd_argv env cd

theorem main_of_stat_ok (env : Env) (w : World) (cd : Path)
    (hcd : myUserCacheDir env.GOOS env.UserCacheDir = .ok cd) (hstat : (Stat w cd).1 = none) :
    main env w = delegate env (Stat w cd).2 cd := by
  unfold main
  rw [hcd]
  simp only
  rcases hs : Stat w cd with ⟨_ | err, w1⟩
  · rfl
  · rw [hs] at hstat; cases hstat

theorem main_of_stat_other (env : Env) (w : World) (cd : Path) (err : Error)
    (hcd : myUserCacheDir env.GOOS env.UserCacheDir = .ok cd)
    (hstat : (Stat w cd).1 = some err) (hne : err.IsNotExist = false) :
    main env w = Fatal (Stat w cd).2
      ("failed to stat cache directory " ++ cd.render ++ ": " ++ err.Message) := by
  unfold main
  rw [hcd]
  simp only
  rcases hs : Stat w cd with ⟨_ | err1, w1⟩
  · rw [hs] at hstat; cases hstat
  · rw [hs] at hstat
    cases hstat
    simp [hne]

theorem main_of_stat_notExist (env : Env) (w : World) (cd : Path) (err : Error)
    (hcd : myUserCacheDir env.GOOS env.UserCacheDir = .ok cd)
    (hstat : (Stat w cd).1 = some err) (hne : err.IsNotExist = true) :
    main env w =
      match MkdirAll (Stat w cd).2 cd with
      | (some err, w2) =>
        Fatal w2 ("failed to create cache directory " ++ cd.render ++ ": " ++ err.Message)
      | (none, w2) =>
        match extractArchives env w2 cd with
        | (none, w3) => delegate env w3 cd
        | (some err, w3) =>
          match RemoveAll w3 cd with
          | (some err2, w4) =>
            Fatal w4 ("failed to remove cache directory " ++ cd.render
              ++ " after fatal error " ++ err.Message ++ ": " ++ err2.Message)
          | (none, w4) => Fatal w4 err.Message := by
  unfold main
  rw [hcd]
  simp only
  rcases hs : Stat w cd with ⟨_ | err1, w1⟩
  · rw [hs] at hstat; cases hstat
  · rw [hs] at hstat
    cases hstat
    simp only [hne, if_true]

/-! ## The delegator: exit code and arguments -/

/-- C2: for every run of `main` in which the child process is started and runs to
completion with exit code `c`, zero or not, the launcher itself exits with exactly `c`. -/
theorem exit_code_fidelity (env : Env) (fs : FS) (faults : List (Option Errno))
    (exe : Path) (argv : List String) (c : Nat)
    (h : Effect.child exe argv (.exited c) ∈ (main env (World.boot fs faults)).world.trace) :
    (main env (World.boot fs faults)).exitCode = (c : Int) :=
  (main_child env fs faults exe argv (.exited c) h).2.1

/-- A cold-cache run of the sample environment: the installed executable exits with 7, and
so does the launcher. -/
theorem exit_code_fidelity_witness :
    Effect.child (sampleCacheDir ++ ["zig"]) ["zig", "foo", "bar"] (.exited 7)
        ∈ (main sampleEnv (World.boot homeFS [])).world.trace
      ∧ (main sampleEnv (World.boot homeFS [])).exitCode = 7 :=
  ⟨by decide, exit_code_fidelity sampleEnv homeFS [] (sampleCacheDir ++ ["zig"]) ["zig", "foo", "bar"] 7
      (by decide)⟩

/-- C5: for every argument vector the launcher is invoked with, the child process is
started with the same trailing arguments (everything after argument 0), in the same
order, none added, dropped or altered. -/
theorem arguments_forwarded (env : Env) (fs : FS) (faults : List (Option Errno))
    (exe : Path) (argv : List String) (st : ProcessState)
    (h : Effect.child exe argv st ∈ (main env (World.boot fs faults)).world.trace) :
    argv.drop 1 = env.Args.drop 1 := by
  have h1 := (main_child env fs faults exe argv st h).1
  rw [h1]
  cases hargs : env.Args with
  | nil => simp
  | cons a rest => simp

/-- The launcher invoked as `zig foo bar` with an installed cache: the child sees the
trailing arguments `foo bar`. -/
theorem arguments_forwarded_witness :
    Effect.child (sampleCacheDir ++ ["zig"]) ["zig", "foo", "bar"] (.exited 7)
        ∈ (main sampleEnv (World.boot installedFS [])).world.trace
      ∧ ["zig", "foo", "bar"].drop 1 = sampleEnv.Args.drop 1 :=
  ⟨by decide, arguments_forwarded sampleEnv installedFS [] (sampleCacheDir ++ ["zig"])
      ["zig", "foo", "bar"] (.exited 7) (by decide)⟩

/-- C10, as stated, fails: the launcher invoked as `zig foo bar` starts exactly one child,
whose argument vector is `zig foo bar`: three elements like the launcher's own, not four,
and the program name occurs in it once. -/
theorem argv_duplication_counterexample :
    children (main sampleEnv (World.boot installedFS [])).world.trace
        = [Effect.child (sampleCacheDir ++ ["zig"]) ["zig", "foo", "bar"] (.exited 7)]
      ∧ sampleEnv.Args = ["zig", "foo", "bar"]
      ∧ ["zig", "foo", "bar"].length ≠ sampleEnv.Args.length + 1
      ∧ ["zig", "foo", "bar"].count "zig" = 1 := by
  decide

/-- C10, amended: for every non-empty argument vector the launcher is invoked with, the
child's argument vector is exactly the launcher's own: argument 0 is the launcher's own
program name, it is not included a second time, and the two vectors have the same
length. -/
theorem child_argv_is_own_argv (env : Env) (fs : FS) (faults : List (Option Errno))
    (exe : Path) (argv : List String) (st : ProcessState) (hargs : env.Args ≠ [])
    (h : Effect.child exe argv st ∈ (main env (World.boot fs faults)).world.trace) :
    argv = env.Args ∧ argv.head? = env.Args.head? ∧ argv.length = env.Args.length := by
  have h1 := (main_child env fs faults exe argv st h).1
  have hlen : env.Args.length > 0 := List.length_pos.mpr hargs
  rw [if_pos hlen] at h1
  subst h1
  exact ⟨rfl, rfl, rfl⟩

/-- The launcher invoked as `zig foo bar`: the child is started with `zig foo bar`. -/
theorem child_argv_is_own_argv_witness :
    sampleEnv.Args ≠ []
      ∧ Effect.child (sampleCacheDir ++ ["zig"]) ["zig", "foo", "bar"] (.exited 7)
        ∈ (main sampleEnv (World.boot installedFS [])).world.trace
      ∧ ["zig", "foo", "bar"] = sampleEnv.Args :=
  ⟨by decide, by decide,
    (child_argv_is_own_argv sampleEnv installedFS [] (sampleCacheDir ++ ["zig"])
      ["zig", "foo", "bar"] (.exited 7) (by decide) (by decide)).1⟩

/-! ## Traces only grow -/

theorem World.Extends.refl (w : World) : w.Extends w :=
  ⟨[], by simp⟩

theorem World.Extends.trans {w w1 w2 : World} (h1 : w.Extends w1) (h2 : w1.Extends w2) :
    w.Extends w2 := by
  rcases h1 with ⟨t1, h1⟩
  rcases h2 with ⟨t2, h2⟩
  exact ⟨t1 ++ t2, by rw [h2, h1, List.append_assoc]⟩

theorem World.Extends.mem {w w1 : World} (h : w.Extends w1) {e : Effect} (he : e ∈ w.trace) :
    e ∈ w1.trace := by
  rcases h with ⟨t, h⟩
  rw [h]
  exact List.mem_append_left t he

theorem Stat_extends (w : World) (p : Path) : w.Extends (Stat w p).2 :=
  ⟨_, Stat_trace w p⟩

theorem MkdirAll_extends (w : World) (p : Path) : w.Extends (MkdirAll w p).2 :=
  ⟨_, MkdirAll_trace w p⟩

theorem createFile_extends (w : World) (p : Path) (c : Bytes) (m : Nat) :
    w.Extends (createFile w p c m).2 :=
  ⟨_, createFile_trace w p c m⟩

theorem RemoveAll_extends (w : World) (p : Path) : w.Extends (RemoveAll w p).2 :=
  ⟨_, RemoveAll_trace w p⟩

theorem zipNewReader_extends (env : Env) (w : World) (blob : Bytes) :
    w.Extends (zipNewReader env w blob).2 :=
  ⟨_, rfl⟩

theorem copyEntry_extends (w : World) (dir : Path) (e : Entry) :
    w.Extends (copyEntry w dir e).2 := by
  unfold copyEntry
  split
  · exact MkdirAll_extends _ _
  · exact createFile_extends _ _ _ _
  · exact World.Extends.refl w

theorem copyEntries_extends (dir : Path) (es : List Entry) :
    ∀ w : World, w.Extends (copyEntries w dir es).2 := by
  induction es with
  | nil => intro w; exact World.Extends.refl w
  | cons e es ih =>
    intro w
    unfold copyEntries
    have h1 := copyEntry_extends w dir e
    rcases h : copyEntry w dir e with ⟨_ | err, w1⟩
    · rw [h] at h1
      exact h1.trans (ih w1)
    · rw [h] at h1
      exact h1

theorem CopyFS_extends (w : World) (dir : Path) (a : Archive) :
    w.Extends (CopyFS w dir a).2 := by
  unfold CopyFS
  have h1 := MkdirAll_extends w dir
  rcases h : MkdirAll w dir with ⟨_ | err, w1⟩
  · rw [h] at h1
    exact h1.trans (copyEntries_extends dir a w1)
  · rw [h] at h1
    exact h1

theorem extractArchives_extends (env : Env) (w : World) (cd : Path) :
    w.Extends (extractArchives env w cd).2 := by
  have z1 := zipNewReader_extends env w env.zigCommonZip
  unfold extractArchives
  rcases h1 : zipNewReader env w env.zigCommonZip with ⟨err | a1, w1⟩
  · rw [h1] at z1; exact z1
  · rw [h1] at z1
    have c1 := CopyFS_extends w1 cd a1
    simp only
    rcases h2 : CopyFS w1 cd a1 with ⟨_ | err, w2⟩
    · rw [h2] at c1
      have z2 := zipNewReader_extends env w2 env.zigLinuxAmd64Zip
      simp only
      rcases h3 : zipNewReader env w2 env.zigLinuxAmd64Zip with ⟨err | a2, w3⟩
      · rw [h3] at z2; exact (z1.trans c1).trans z2
      · rw [h3] at z2
        have c2 := CopyFS_extends w3 cd a2
        simp only
        rcases h4 : CopyFS w3 cd a2 with ⟨_ | err, w4⟩
        · rw [h4] at c2; exact ((z1.trans c1).trans z2).trans c2
        · rw [h4] at c2; exact ((z1.trans c1).trans z2).trans c2
    · rw [h2] at c1; exact z1.trans c1

theorem delegate_extends (env : Env) (w : World) (cd : Path) :
    w.Extends (delegate env w cd).world := by
  rcases delegate_cases env w cd with ⟨errno, hd⟩ | ⟨content, mode, _, _, hd⟩
  · rw [hd]; exact World.Extends.refl w
  · rw [hd]; exact ⟨_, rfl⟩

theorem delegate_fs (env : Env) (w : World) (cd : Path) :
    (delegate env w cd).world.fs = w.fs := by
  rcases delegate_cases env w cd with ⟨errno, hd⟩ | ⟨content, mode, _, _, hd⟩
  · rw [hd]; rfl
  · rw [hd]; rfl

theorem delegate_no_install (env : Env) (w : World) (cd : Path)
    (hw : ∀ e ∈ w.trace, e.isInstallStep = false) :
    ∀ e ∈ (delegate env w cd).world.trace, e.isInstallStep = false := by
  rcases delegate_cases env w cd with ⟨errno, hd⟩ | ⟨content, mode, _, _, hd⟩
  · rw [hd]; exact hw
  · rw [hd]
    intro e he
    simp only [Exit, World.after, List.mem_append, List.mem_singleton] at he
    rcases he with he | he
    · exact hw e he
    · subst he; rfl

/-! ## The installer: an existing cache directory, a failing stat -/

/-- C4: for every run of `main` in which the stat of the cache directory succeeds, whatever
the directory contains, the installer performs no file system write: the delegator is
entered right after the stat with the initial file tree, the trace of the whole run holds
no installation step (no directory made, no archive opened, no file created, nothing
removed), and the file tree at the end is the initial one. -/
theorem existing_cache_untouched (env : Env) (fs : FS) (faults : List (Option Errno))
    (cd : Path) (hcd : myUserCacheDir env.GOOS env.UserCacheDir = .ok cd)
    (hstat : (Stat (World.boot fs faults) cd).1 = none) :
    main env (World.boot fs faults) = delegate env (Stat (World.boot fs faults) cd).2 cd
      ∧ (Stat (World.boot fs faults) cd).2.fs = fs
      ∧ (Stat (World.boot fs faults) cd).2.trace = [.stat cd]
      ∧ (∀ e ∈ (main env (World.boot fs faults)).world.trace, e.isInstallStep = false)
      ∧ (main env (World.boot fs faults)).world.fs = fs := by
  have hm := main_of_stat_ok env (World.boot fs faults) cd hcd hstat
  have ht : (Stat (World.boot fs faults) cd).2.trace = [.stat cd] := by
    rw [Stat_trace]; rfl
  refine ⟨hm, Stat_fs _ _, ht, ?_, ?_⟩
  · rw [hm]
    apply delegate_no_install
    rw [ht]
    intro e he
    rw [List.mem_singleton] at he
    subst he
    rfl
  · rw [hm, delegate_fs, Stat_fs]
    rfl

/-- A run against a cache directory that exists and is empty: nothing is installed, the
tree is left as it was. -/
theorem existing_cache_untouched_witness :
    myUserCacheDir sampleEnv.GOOS sampleEnv.UserCacheDir = .ok sampleCacheDir
      ∧ (Stat (World.boot emptyCacheFS []) sampleCacheDir).1 = none
      ∧ (∀ e ∈ (main sampleEnv (World.boot emptyCacheFS [])).world.trace,
          e.isInstallStep = false)
      ∧ (main sampleEnv (World.boot emptyCacheFS [])).world.fs = emptyCacheFS :=
  ⟨rfl, by decide,
    (existing_cache_untouched sampleEnv emptyCacheFS [] sampleCacheDir rfl (by decide)).2.2.2⟩

/-- C7: for every run of `main` in which the cache directory exists (its stat succeeds) but
nothing is at the target executable, `zig.exe` on windows and `zig` otherwise, directly
inside the cache directory, the launcher exits with status 1 through its own
start-failure diagnostic and performs no installation step and starts no child: the only
call traced is the stat, and the file tree is unchanged. -/
theorem missing_executable_fatal (env : Env) (fs : FS) (faults : List (Option Errno))
    (cd : Path) (hcd : myUserCacheDir env.GOOS env.UserCacheDir = .ok cd)
    (hstat : (Stat (World.boot fs faults) cd).1 = none)
    (hexe : fs (Join cd [if env.GOOS = "windows" then "zig.exe" else "zig"]) = none) :
    (main env (World.boot fs faults)).exitCode = 1
      ∧ (∃ errno, (main env (World.boot fs faults)).diagnostics =
          ["failed to run " ++ (zigCmd env cd).render ++ ": "
            ++ (Error.pathError "fork/exec"
              (Join cd [if env.GOOS = "windows" then "zig.exe" else "zig"]) errno).Message])
      ∧ (main env (World.boot fs faults)).world.trace = [.stat cd]
      ∧ (main env (World.boot fs faults)).world.fs = fs := by
  have hm := main_of_stat_ok env (World.boot fs faults) cd hcd hstat
  have ht : (Stat (World.boot fs faults) cd).2.trace = [.stat cd] := by
    rw [Stat_trace]; rfl
  have hfs : (Stat (World.boot fs faults) cd).2.fs = fs := Stat_fs _ _
  have hz : zigExe env.GOOS = (if env.GOOS = "windows" then "zig.exe" else "zig") := rfl
  rw [← hz] at hexe ⊢
  rcases delegate_cases env (Stat (World.boot fs faults) cd).2 cd with
    ⟨errno, hd⟩ | ⟨content, mode, _, hx, _⟩
  · rw [hm, hd]
    exact ⟨rfl, ⟨errno, rfl⟩, ht, hfs⟩
  · rw [hfs, hexe] at hx
    cases hx

/-- A windows run against an empty cache directory: `zig.exe` is missing, the launcher
dies with status 1 after the stat alone. -/
theorem missing_executable_fatal_witness :
    myUserCacheDir windowsEnv.GOOS windowsEnv.UserCacheDir = .ok windowsCacheDir
      ∧ (Stat (World.boot (dirFS windowsCacheDir) []) windowsCacheDir).1 = none
      ∧ dirFS windowsCacheDir (windowsCacheDir ++ ["zig.exe"]) = none
      ∧ (main windowsEnv (World.boot (dirFS windowsCacheDir) [])).exitCode = 1
      ∧ (main windowsEnv (World.boot (dirFS windowsCacheDir) [])).world.trace
        = [.stat windowsCacheDir] :=
  ⟨rfl, by decide, by decide,
    (missing_executable_fatal windowsEnv (dirFS windowsCacheDir) [] windowsCacheDir rfl
      (by decide) (by decide)).1,
    (missing_executable_fatal windowsEnv (dirFS windowsCacheDir) [] windowsCacheDir rfl
      (by decide) (by decide)).2.2.1⟩

/-- After a does-not-exist stat, the run goes through `MkdirAll` on the cache directory, and
whatever follows continues from the world that call left. -/
theorem main_extends_mkdir (env : Env) (w : World) (cd : Path) (err : Error)
    (hcd : myUserCacheDir env.GOOS env.UserCacheDir = .ok cd)
    (hstat : (Stat w cd).1 = some err) (hne : err.IsNotExist = true) :
    (MkdirAll (Stat w cd).2 cd).2.Extends (main env w).world := by
  rw [main_of_stat_notExist env w cd err hcd hstat hne]
  rcases hm : MkdirAll (Stat w cd).2 cd with ⟨_ | err1, w2⟩
  · simp only
    have x1 := extractArchives_extends env w2 cd
    rcases hx : extractArchives env w2 cd with ⟨_ | err2, w3⟩
    · rw [hx] at x1
      exact x1.trans (delegate_extends env w3 cd)
    · rw [hx] at x1
      simp only
      have r1 := RemoveAll_extends w3 cd
      rcases hr : RemoveAll w3 cd with ⟨_ | err3, w4⟩
      · rw [hr] at r1; exact x1.trans r1
      · rw [hr] at r1; exact x1.trans r1
  · exact World.Extends.refl w2

/-- C8: for every run of `main` in which the stat of the cache directory fails with an
error that is not a does-not-exist error, the process terminates at once with status 1
and the stat diagnostic: the only call traced is the stat (no directory made, no archive
opened, nothing removed, no child started) and the file tree is unchanged.  A
does-not-exist error is the only stat error that leads to installation: a run whose
trace holds an installation step had a does-not-exist stat error, and such an error does
lead to the creation of the cache directory. -/
theorem stat_failure_fatal (env : Env) (fs : FS) (faults : List (Option Errno))
    (cd : Path) (err : Error) (hcd : myUserCacheDir env.GOOS env.UserCacheDir = .ok cd)
    (hstat : (Stat (World.boot fs faults) cd).1 = some err) :
    (err.IsNotExist = false →
        (main env (World.boot fs faults)).exitCode = 1
          ∧ (main env (World.boot fs faults)).diagnostics =
            ["failed to stat cache directory " ++ cd.render ++ ": " ++ err.Message]
          ∧ (main env (World.boot fs faults)).world.trace = [.stat cd]
          ∧ (main env (World.boot fs faults)).world.fs = fs)
      ∧ ((∃ e ∈ (main env (World.boot fs faults)).world.trace, e.isInstallStep = true) →
        err.IsNotExist = true)
      ∧ (err.IsNotExist = true →
        Effect.mkdirAll cd ∈ (main env (World.boot fs faults)).world.trace) := by
  have ht : (Stat (World.boot fs faults) cd).2.trace = [.stat cd] := by
    rw [Stat_trace]; rfl
  have hfs : (Stat (World.boot fs faults) cd).2.fs = fs := Stat_fs _ _
  have hfatal : err.IsNotExist = false →
      main env (World.boot fs faults) = Fatal (Stat (World.boot fs faults) cd).2
        ("failed to stat cache directory " ++ cd.render ++ ": " ++ err.Message) :=
    main_of_stat_other env (World.boot fs faults) cd err hcd hstat
  refine ⟨?_, ?_, ?_⟩
  · intro hne
    rw [hfatal hne]
    exact ⟨rfl, rfl, ht, hfs⟩
  · rintro ⟨e, he, hstep⟩
    cases hne : err.IsNotExist with
    | true => rfl
    | false =>
      rw [hfatal hne] at he
      simp only [Fatal] at he
      rw [ht, List.mem_singleton] at he
      subst he
      cases hstep
  · intro hne
    apply (main_extends_mkdir env (World.boot fs faults) cd err hcd hstat hne).mem
    rw [MkdirAll_trace]
    simp

/-- A run in which the environment fails the stat with `EACCES`: the launcher dies with
status 1 after the stat alone. -/
theorem stat_failure_fatal_witness :
    myUserCacheDir sampleEnv.GOOS sampleEnv.UserCacheDir = .ok sampleCacheDir
      ∧ (Stat (World.boot homeFS [some .EACCES]) sampleCacheDir).1
        = some (.pathError "stat" sampleCacheDir .EACCES)
      ∧ (Error.pathError "stat" sampleCacheDir .EACCES).IsNotExist = false
      ∧ (main sampleEnv (World.boot homeFS [some .EACCES])).exitCode = 1
      ∧ (main sampleEnv (World.boot homeFS [some .EACCES])).world.trace
        = [.stat sampleCacheDir] :=
  ⟨rfl, by decide, by decide,
    ((stat_failure_fatal sampleEnv homeFS [some .EACCES] sampleCacheDir
      (.pathError "stat" sampleCacheDir .EACCES) rfl (by decide)).1 (by decide)).1,
    ((stat_failure_fatal sampleEnv homeFS [some .EACCES] sampleCacheDir
      (.pathError "stat" sampleCacheDir .EACCES) rfl (by decide)).1 (by decide)).2.2.1⟩

/-! ## The installer: rollback -/

theorem RemoveAll_removes (w : World) (p : Path) (h : (RemoveAll w p).1 = none) :
    ∀ q, p <+: q → (RemoveAll w p).2.fs q = none := by
  unfold RemoveAll at h ⊢
  cases hf : w.fault with
  | some errno => rw [hf] at h; cases h
  | none =>
    intro q hq
    have hq1 : p.isPrefixOf q = true := List.isPrefixOf_iff_prefix.mpr hq
    simp only [World.after, hq1, if_true]

/-- The run after a failed extraction: the rollback, then one of the two fatal exits. -/
theorem main_of_extract_failed (env : Env) (w : World) (cd : Path) (err0 e : Error)
    (hcd : myUserCacheDir env.GOOS env.UserCacheDir = .ok cd)
    (hstat : (Stat w cd).1 = some err0) (hne : err0.IsNotExist = true)
    (hmk : (MkdirAll (Stat w cd).2 cd).1 = none)
    (hex : (extractArchives env (MkdirAll (Stat w cd).2 cd).2 cd).1 = some e) :
    main env w =
      match (RemoveAll (extractArchives env (MkdirAll (Stat w cd).2 cd).2 cd).2 cd).1 with
      | some e2 =>
        Fatal (RemoveAll (extractArchives env (MkdirAll (Stat w cd).2 cd).2 cd).2 cd).2
          ("failed to remove cache directory " ++ cd.render ++ " after fatal error "
            ++ e.Message ++ ": " ++ e2.Message)
      | none =>
        Fatal (RemoveAll (extractArchives env (MkdirAll (Stat w cd).2 cd).2 cd).2 cd).2
          e.Message := by
  rw [main_of_stat_notExist env w cd err0 hcd hstat hne]
  rcases hm1 : MkdirAll (Stat w cd).2 cd with ⟨_ | err1, w2⟩
  · rw [hm1] at hex
    simp only at hex ⊢
    rcases hx : extractArchives env w2 cd with ⟨_ | err2, w3⟩
    · rw [hx] at hex; cases hex
    · rw [hx] at hex
      cases hex
      simp only
      rcases hr : RemoveAll w3 cd with ⟨_ | err3, w4⟩ <;> rfl
  · rw [hm1] at hmk; cases hmk

theorem extractArchives_from_boot_children (env : Env) (fs : FS)
    (faults : List (Option Errno)) (cd : Path) :
    children (extractArchives env (MkdirAll (Stat (World.boot fs faults) cd).2 cd).2 cd).2.trace
      = [] := by
  rw [extractArchives_children, MkdirAll_children, Stat_children]
  rfl

/-- C3, as stated, fails: in a cold-cache run of `brokenEnv` the cache directory is absent
at first and is created, the first archive is extracted, opening the second archive fails,
and the environment fails the removal with `EBUSY`: the process exits with status 1 and
starts no child, but the cache directory still exists afterward. -/
theorem rollback_counterexample :
    homeFS sampleCacheDir = none
      ∧ (MkdirAll (Stat (World.boot homeFS busyRollback) sampleCacheDir).2 sampleCacheDir).1 = none
      ∧ (extractArchives brokenEnv
          (MkdirAll (Stat (World.boot homeFS busyRollback) sampleCacheDir).2 sampleCacheDir).2
          sampleCacheDir).1
        = some (.errorf "failed to create zip reader for zig-linux-amd64.zip: "
            (.errorString "zip: not a valid zip file"))
      ∧ (main brokenEnv (World.boot homeFS busyRollback)).exitCode = 1
      ∧ (main brokenEnv (World.boot homeFS busyRollback)).world.fs sampleCacheDir = some .dir
      ∧ (main brokenEnv (World.boot homeFS busyRollback)).world.fs
          (sampleCacheDir ++ ["lib", "std.zig"]) = some (.file [10] 0o666) := by
  decide

/-- C3, amended: for every run of `main` in which the stat of the cache directory reports
that it does not exist and the directory is created, if opening either embedded archive
or extracting any entry fails, then `os.RemoveAll` is called on the cache directory, no
child process is started and the process exits with status 1; and if that removal
succeeds, nothing is left at the cache directory or below it. -/
theorem rollback_on_failure (env : Env) (fs : FS) (faults : List (Option Errno))
    (cd : Path) (err0 e : Error) (hcd : myUserCacheDir env.GOOS env.UserCacheDir = .ok cd)
    (hstat : (Stat (World.boot fs faults) cd).1 = some err0) (hne : err0.IsNotExist = true)
    (hmk : (MkdirAll (Stat (World.boot fs faults) cd).2 cd).1 = none)
    (hex : (extractArchives env (MkdirAll (Stat (World.boot fs faults) cd).2 cd).2 cd).1
      = some e) :
    (main env (World.boot fs faults)).exitCode = 1
      ∧ children (main env (World.boot fs faults)).world.trace = []
      ∧ Effect.removeAll cd ∈ (main env (World.boot fs faults)).world.trace
      ∧ ((RemoveAll (extractArchives env
            (MkdirAll (Stat (World.boot fs faults) cd).2 cd).2 cd).2 cd).1 = none →
          ∀ q, cd <+: q → (main env (World.boot fs faults)).world.fs q = none) := by
  have hm := main_of_extract_failed env (World.boot fs faults) cd err0 e hcd hstat hne hmk hex
  have hc := extractArchives_from_boot_children env fs faults cd
  have hrc := RemoveAll_children
    (extractArchives env (MkdirAll (Stat (World.boot fs faults) cd).2 cd).2 cd).2 cd
  have hrt := RemoveAll_trace
    (extractArchives env (MkdirAll (Stat (World.boot fs faults) cd).2 cd).2 cd).2 cd
  have hrm := RemoveAll_removes
    (extractArchives env (MkdirAll (Stat (World.boot fs faults) cd).2 cd).2 cd).2 cd
  rw [hm]
  cases hr : (RemoveAll
      (extractArchives env (MkdirAll (Stat (World.boot fs faults) cd).2 cd).2 cd).2 cd).1 with
  | none =>
    simp only [Fatal]
    refine ⟨trivial, by rw [hrc, hc], by rw [hrt]; simp, fun _ => hrm hr⟩
  | some e2 =>
    simp only [Fatal]
    refine ⟨trivial, by rw [hrc, hc], by rw [hrt]; simp, fun h => by cases h⟩

/-- A cold-cache run of `brokenEnv` without environment failures: the second archive cannot
be opened, the cache directory is removed again and the process exits with status 1. -/
theorem rollback_on_failure_witness :
    myUserCacheDir brokenEnv.GOOS brokenEnv.UserCacheDir = .ok sampleCacheDir
      ∧ (Stat (World.boot homeFS []) sampleCacheDir).1
        = some (.pathError "stat" sampleCacheDir .ENOENT)
      ∧ (main brokenEnv (World.boot homeFS [])).exitCode = 1
      ∧ (main brokenEnv (World.boot homeFS [])).world.fs sampleCacheDir = none :=
  ⟨rfl, by decide,
    (rollback_on_failure brokenEnv homeFS [] sampleCacheDir
      (.pathError "stat" sampleCacheDir .ENOENT)
      (.errorf "failed to create zip reader for zig-linux-amd64.zip: "
        (.errorString "zip: not a valid zip file"))
      rfl (by decide) (by decide) (by decide) (by decide)).1,
    (rollback_on_failure brokenEnv homeFS [] sampleCacheDir
      (.pathError "stat" sampleCacheDir .ENOENT)
      (.errorf "failed to create zip reader for zig-linux-amd64.zip: "
        (.errorString "zip: not a valid zip file"))
      rfl (by decide) (by decide) (by decide) (by decide)).2.2.2 (by decide)
      sampleCacheDir (List.prefix_refl _)⟩

/-- C9: for every run of `main` in which the installation fails with an error `e` and the
removal of the cache directory that follows fails with an error `e2`, the process exits
with status 1 and the one diagnostic it writes holds the message of `e` and the message of
`e2`: the original error is not swallowed. -/
theorem rollback_failure_reported (env : Env) (fs : FS) (faults : List (Option Errno))
    (cd : Path) (err0 e e2 : Error)
    (hcd : myUserCacheDir env.GOOS env.UserCacheDir = .ok cd)
    (hstat : (Stat (World.boot fs faults) cd).1 = some err0) (hne : err0.IsNotExist = true)
    (hmk : (MkdirAll (Stat (World.boot fs faults) cd).2 cd).1 = none)
    (hex : (extractArchives env (MkdirAll (Stat (World.boot fs faults) cd).2 cd).2 cd).1
      = some e)
    (hrm : (RemoveAll (extractArchives env
      (MkdirAll (Stat (World.boot fs faults) cd).2 cd).2 cd).2 cd).1 = some e2) :
    (main env (World.boot fs faults)).exitCode = 1
      ∧ (main env (World.boot fs faults)).diagnostics =
        ["failed to remove cache directory " ++ cd.render ++ " after fatal error "
          ++ e.Message ++ ": " ++ e2.Message]
      ∧ ∀ msg ∈ (main env (World.boot fs faults)).diagnostics,
          Occurs e.Message msg ∧ Occurs e2.Message msg := by
  have hm := main_of_extract_failed env (World.boot fs faults) cd err0 e hcd hstat hne hmk hex
  rw [hrm] at hm
  simp only at hm
  rw [hm]
  refine ⟨rfl, rfl, ?_⟩
  intro msg hmsg
  simp only [Fatal, List.mem_singleton] at hmsg
  subst hmsg
  refine ⟨⟨"failed to remove cache directory " ++ cd.render ++ " after fatal error ",
      ": " ++ e2.Message, ?_⟩,
    ⟨"failed to remove cache directory " ++ cd.render ++ " after fatal error "
      ++ e.Message ++ ": ", "", ?_⟩⟩
  · simp only [String.append_assoc]
  · simp only [String.append_empty]

/-- A cold-cache run of `brokenEnv` in which the rollback fails with `EBUSY`: the diagnostic
names the zip error and the removal error. -/
theorem rollback_failure_reported_witness :
    myUserCacheDir brokenEnv.GOOS brokenEnv.UserCacheDir = .ok sampleCacheDir
      ∧ (main brokenEnv (World.boot homeFS busyRollback)).exitCode = 1
      ∧ (main brokenEnv (World.boot homeFS busyRollback)).diagnostics =
        ["failed to remove cache directory home/u/.cache/go-zig/0.13.0 after fatal error "
          ++ "failed to create zip reader for zig-linux-amd64.zip: zip: not a valid zip file"
          ++ ": " ++ "unlinkat home/u/.cache/go-zig/0.13.0: device or resource busy"] :=
  ⟨rfl,
    (rollback_failure_reported brokenEnv homeFS busyRollback sampleCacheDir
      (.pathError "stat" sampleCacheDir .ENOENT)
      (.errorf "failed to create zip reader for zig-linux-amd64.zip: "
        (.errorString "zip: not a valid zip file"))
      (.pathError "unlinkat" sampleCacheDir .EBUSY)
      rfl (by decide) (by decide) (by decide) (by decide) (by decide)).1,
    (rollback_failure_reported brokenEnv homeFS busyRollback sampleCacheDir
      (.pathError "stat" sampleCacheDir .ENOENT)
      (.errorf "failed to create zip reader for zig-linux-amd64.zip: "
        (.errorString "zip: not a valid zip file"))
      (.pathError "unlinkat" sampleCacheDir .EBUSY)
      rfl (by decide) (by decide) (by decide) (by decide) (by decide)).2.1⟩

/-! ## Extraction never overwrites -/

theorem MkdirAll_keeps (w : World) (p q : Path) (h : w.fs q ≠ none) :
    (MkdirAll w p).2.fs q ≠ none := by
  unfold MkdirAll
  split
  · exact h
  · split
    · exact h
    · simp only [World.after]
      split
      · simp
      · exact h

theorem createFile_keeps (w : World) (p q : Path) (c : Bytes) (m : Nat) (h : w.fs q ≠ none) :
    (createFile w p c m).2.fs q ≠ none := by
  unfold createFile
  split
  · exact h
  · split
    · exact h
    · split
      · simp only [World.after]
        split
        · simp
        · exact h
      · exact h
      · exact h

theorem createFile_ok_present (w : World) (p : Path) (c : Bytes) (m : Nat)
    (h : (createFile w p c m).1 = none) : (createFile w p c m).2.fs p ≠ none := by
  unfold createFile at h ⊢
  split
  · rename_i errno hf; rw [hf] at h; cases h
  · rename_i hf
    rw [hf] at h
    simp only at h
    split
    · rename_i node hx; rw [hx] at h; cases h
    · rename_i hx
      rw [hx] at h
      simp only at h
      split
      · simp [World.after]
      · rename_i c1 m1 hd; rw [hd] at h; cases h
      · rename_i hd; rw [hd] at h; cases h

theorem createFile_fails_of_present (w : World) (p : Path) (c : Bytes) (m : Nat)
    (h : w.fs p ≠ none) : (createFile w p c m).1 ≠ none := by
  unfold createFile
  split
  · simp
  · split
    · simp
    · rename_i hx; exact absurd hx h

theorem copyEntry_keeps (w : World) (dir q : Path) (e : Entry) (h : w.fs q ≠ none) :
    (copyEntry w dir e).2.fs q ≠ none := by
  unfold copyEntry
  split
  · exact MkdirAll_keeps _ _ _ h
  · exact createFile_keeps _ _ _ _ _ h
  · exact h

theorem copyEntries_keeps (dir q : Path) (es : List Entry) :
    ∀ w : World, w.fs q ≠ none → (copyEntries w dir es).2.fs q ≠ none := by
  induction es with
  | nil => intro w h; exact h
  | cons e es ih =>
    intro w h
    unfold copyEntries
    have h1 := copyEntry_keeps w dir q e h
    rcases hc : copyEntry w dir e with ⟨_ | err, w1⟩
    · rw [hc] at h1
      exact ih w1 h1
    · rw [hc] at h1
      exact h1

/-- A walk that succeeds leaves something at the target of every regular file entry. -/
theorem copyEntries_ok_present (dir p : Path) (c : Bytes) (m : Nat) (es : List Entry) :
    ∀ w : World, (copyEntries w dir es).1 = none → (⟨p, .file c m⟩ : Entry) ∈ es →
      (copyEntries w dir es).2.fs (dir ++ p) ≠ none := by
  induction es with
  | nil => intro w _ hmem; cases hmem
  | cons e es ih =>
    intro w hok hmem
    unfold copyEntries at hok ⊢
    rcases hc : copyEntry w dir e with ⟨_ | err, w1⟩
    · rw [hc] at hok
      simp only at hok ⊢
      rcases List.mem_cons.mp hmem with heq | htail
      · apply copyEntries_keeps
        have h1 : (copyEntry w dir e).2 = w1 := by rw [hc]
        rw [← h1, ← heq]
        have h2 : (copyEntry w dir ⟨p, .file c m⟩).1 = none := by rw [heq, hc]
        exact createFile_ok_present w (dir ++ p) c m h2
      · exact ih w1 hok htail
    · rw [hc] at hok
      cases hok

/-- A walk over entries among which a regular file is aimed at a path where something
already is does not succeed. -/
theorem copyEntries_fails_of_present (dir p : Path) (c : Bytes) (m : Nat) (es : List Entry) :
    ∀ w : World, w.fs (dir ++ p) ≠ none → (⟨p, .file c m⟩ : Entry) ∈ es →
      (copyEntries w dir es).1 ≠ none := by
  induction es with
  | nil => intro w _ hmem; cases hmem
  | cons e es ih =>
    intro w hpres hmem
    unfold copyEntries
    rcases hc : copyEntry w dir e with ⟨_ | err, w1⟩
    · simp only
      rcases List.mem_cons.mp hmem with heq | htail
      · exfalso
        have h2 : (copyEntry w dir ⟨p, .file c m⟩).1 = none := by rw [heq, hc]
        exact createFile_fails_of_present w (dir ++ p) c m hpres h2
      · apply ih w1 _ htail
        have h1 := copyEntry_keeps w dir (dir ++ p) e hpres
        rw [hc] at h1
        exact h1
    · simp

theorem CopyFS_ok_present (w : World) (dir p : Path) (c : Bytes) (m : Nat) (a : Archive)
    (hok : (CopyFS w dir a).1 = none) (hmem : (⟨p, .file c m⟩ : Entry) ∈ a) :
    (CopyFS w dir a).2.fs (dir ++ p) ≠ none := by
  unfold CopyFS at hok ⊢
  rcases hm : MkdirAll w dir with ⟨_ | err, w1⟩
  · rw [hm] at hok
    exact copyEntries_ok_present dir p c m a w1 hok hmem
  · rw [hm] at hok
    cases hok

theorem CopyFS_fails_of_present (w : World) (dir p : Path) (c : Bytes) (m : Nat) (a : Archive)
    (hpres : w.fs (dir ++ p) ≠ none) (hmem : (⟨p, .file c m⟩ : Entry) ∈ a) :
    (CopyFS w dir a).1 ≠ none := by
  unfold CopyFS
  have h1 := MkdirAll_keeps w dir (dir ++ p) hpres
  rcases hm : MkdirAll w dir with ⟨_ | err, w1⟩
  · rw [hm] at h1
    exact copyEntries_fails_of_present dir p c m a w1 h1 hmem
  · simp

/-- When both archives hold a regular file at the same relative path, the extraction
fails, from whatever world it starts. -/
theorem extractArchives_overlap_fails (env : Env) (w : World) (cd p : Path)
    (a1 a2 : Archive) (c1 c2 : Bytes) (m1 m2 : Nat)
    (h1 : env.zipDecode env.zigCommonZip = .ok a1)
    (h2 : env.zipDecode env.zigLinuxAmd64Zip = .ok a2)
    (hp1 : (⟨p, .file c1 m1⟩ : Entry) ∈ a1) (hp2 : (⟨p, .file c2 m2⟩ : Entry) ∈ a2) :
    (extractArchives env w cd).1 ≠ none := by
  unfold extractArchives zipNewReader
  rw [h1]
  simp only
  have hpres := CopyFS_ok_present { w with trace := w.trace ++ [.openZip env.zigCommonZip] }
    cd p c1 m1 a1
  rcases hc1 : CopyFS { w with trace := w.trace ++ [.openZip env.zigCommonZip] } cd a1 with
    ⟨_ | err, w2⟩
  · rw [hc1] at hpres
    simp only
    rw [h2]
    simp only
    have hfail := CopyFS_fails_of_present
      { w2 with trace := w2.trace ++ [.openZip env.zigLinuxAmd64Zip] } cd p c2 m2 a2
      (hpres rfl hp1) hp2
    rcases hc2 : CopyFS { w2 with trace := w2.trace ++ [.openZip env.zigLinuxAmd64Zip] } cd a2
      with ⟨_ | err, w4⟩
    · rw [hc2] at hfail
      exact absurd rfl hfail
    · simp
  · simp

theorem Stat_absent (w : World) (p : Path) (h : w.fs p = none) : (Stat w p).1 ≠ none := by
  unfold Stat
  split
  · simp
  · rw [h]
    simp only
    split <;> simp

/-- The three ways a run goes once the cache directory is resolved: a fatal exit before
any child is started; the delegator right after a successful stat; the delegator after a
complete installation. -/
theorem main_trichotomy (env : Env) (w : World) (cd : Path)
    (hcd : myUserCacheDir env.GOOS env.UserCacheDir = .ok cd) :
    (∃ w1 msg, main env w = Fatal w1 msg ∧ children w1.trace = children w.trace)
      ∨ ((Stat w cd).1 = none ∧ main env w = delegate env (Stat w cd).2 cd)
      ∨ ((extractArchives env (MkdirAll (Stat w cd).2 cd).2 cd).1 = none
        ∧ main env w = delegate env (extractArchives env (MkdirAll (Stat w cd).2 cd).2 cd).2 cd)
    := by
  cases hs : (Stat w cd).1 with
  | none => exact Or.inr (Or.inl ⟨rfl, main_of_stat_ok env w cd hcd hs⟩)
  | some err0 =>
    cases hne : err0.IsNotExist with
    | false =>
      left
      exact ⟨_, _, main_of_stat_other env w cd err0 hcd hs hne, Stat_children w cd⟩
    | true =>
      have hm := main_of_stat_notExist env w cd err0 hcd hs hne
      have m1 := MkdirAll_children (Stat w cd).2 cd
      rcases hmk : MkdirAll (Stat w cd).2 cd with ⟨_ | err1, w2⟩
      · rw [hmk] at hm m1
        simp only at hm
        have x1 := extractArchives_children env w2 cd
        rcases hx : extractArchives env w2 cd with ⟨_ | err2, w3⟩
        · rw [hx] at hm
          exact Or.inr (Or.inr ⟨rfl, hm⟩)
        · rw [hx] at hm x1
          simp only at hm
          have r1 := RemoveAll_children w3 cd
          left
          rcases hr : RemoveAll w3 cd with ⟨_ | err3, w4⟩
          · rw [hr] at hm r1
            exact ⟨_, _, hm, by rw [r1, x1, m1, Stat_children]⟩
          · rw [hr] at hm r1
            exact ⟨_, _, hm, by rw [r1, x1, m1, Stat_children]⟩
      · rw [hmk] at hm m1
        exact Or.inl ⟨_, _, hm, by rw [m1, Stat_children]⟩

/-- C6, as stated, fails: in a cold-cache run of `overlapEnv`, whose two archives both hold
a file `zig`, the second extraction stops with a file-exists error, the cache directory is
removed again and the process exits with status 1 without starting a child: the file of
the second archive is not at `zig` afterward, nothing is. -/
theorem last_writer_counterexample :
    overlapEnv.zipDecode overlapEnv.zigCommonZip = .ok [⟨["zig"], .file [9] 0o755⟩]
      ∧ overlapEnv.zipDecode overlapEnv.zigLinuxAmd64Zip = .ok [⟨["zig"], .file [7] 0o755⟩]
      ∧ homeFS sampleCacheDir = none
      ∧ (main overlapEnv (World.boot homeFS [])).exitCode = 1
      ∧ (main overlapEnv (World.boot homeFS [])).diagnostics =
        ["failed to copy zig-linux-amd64.zip to cache directory home/u/.cache/go-zig/0.13.0: "
          ++ "open home/u/.cache/go-zig/0.13.0/zig: file exists"]
      ∧ (extractArchives overlapEnv
          (MkdirAll (Stat (World.boot homeFS []) sampleCacheDir).2 sampleCacheDir).2
          sampleCacheDir).1.map Error.IsExist = some true
      ∧ children (main overlapEnv (World.boot homeFS [])).world.trace = []
      ∧ (main overlapEnv (World.boot homeFS [])).world.fs (sampleCacheDir ++ ["zig"]) = none :=
  ⟨rfl, rfl, by decide, by decide, by decide, by decide, by decide, by decide⟩

/-- C6, amended: for every pair of embedded archives that both contain a regular file at
the same relative path `p`, installation into an initially absent cache directory does
not succeed: `os.CopyFS` does not overwrite, so the extraction fails, no child process is
started and the process exits with status 1. -/
theorem overlapping_archives_fail (env : Env) (fs : FS) (faults : List (Option Errno))
    (cd p : Path) (a1 a2 : Archive) (c1 c2 : Bytes) (m1 m2 : Nat)
    (hcd : myUserCacheDir env.GOOS env.UserCacheDir = .ok cd)
    (habsent : fs cd = none)
    (h1 : env.zipDecode env.zigCommonZip = .ok a1)
    (h2 : env.zipDecode env.zigLinuxAmd64Zip = .ok a2)
    (hp1 : (⟨p, .file c1 m1⟩ : Entry) ∈ a1) (hp2 : (⟨p, .file c2 m2⟩ : Entry) ∈ a2) :
    (main env (World.boot fs faults)).exitCode = 1
      ∧ children (main env (World.boot fs faults)).world.trace = []
      ∧ (extractArchives env (MkdirAll (Stat (World.boot fs faults) cd).2 cd).2 cd).1 ≠ none
    := by
  have hx := extractArchives_overlap_fails env
    (MkdirAll (Stat (World.boot fs faults) cd).2 cd).2 cd p a1 a2 c1 c2 m1 m2 h1 h2 hp1 hp2
  rcases main_trichotomy env (World.boot fs faults) cd hcd with
    ⟨w1, msg, hm, hc⟩ | ⟨hs, _⟩ | ⟨hok, _⟩
  · rw [hm]
    exact ⟨rfl, by simp only [Fatal]; rw [hc]; rfl, hx⟩
  · exact absurd hs (Stat_absent (World.boot fs faults) cd habsent)
  · exact absurd hok hx

/-- A cold-cache run of `overlapEnv`: both archives hold `zig`, the run ends with
status 1. -/
theorem overlapping_archives_fail_witness :
    myUserCacheDir overlapEnv.GOOS overlapEnv.UserCacheDir = .ok sampleCacheDir
      ∧ homeFS sampleCacheDir = none
      ∧ (⟨["zig"], .file [9] 0o755⟩ : Entry) ∈ [(⟨["zig"], .file [9] 0o755⟩ : Entry)]
      ∧ (main overlapEnv (World.boot homeFS [])).exitCode = 1 :=
  ⟨rfl, by decide, by decide,
    (overlapping_archives_fail overlapEnv homeFS [] sampleCacheDir ["zig"]
      [⟨["zig"], .file [9] 0o755⟩] [⟨["zig"], .file [7] 0o755⟩] [9] [7] 0o755 0o755
      rfl (by decide) rfl rfl (by decide) (by decide)).1⟩

end GoZig
